import Mathlib

/-!
Shallow embedding of the publish-queue / retry engine of the OW_Reddit_X_Bot
repository (src/main.py and src/queue_manager.py), together with theorems
settling the stated claims about it.

Modelling conventions:
- SQLite tables become Lean lists: the seen_posts table is a list of ids
  (insertion with INSERT OR IGNORE), the pending_posts table a list of
  PendingEntry rows, the json_batches table a list of Batch rows.
- SQL ORDER BY over a column is modelled with insertion sort on that column
  (a stable total order; SQLite leaves ties unspecified, the claims only
  concern the ordering of the sorted column itself).
- Timestamps (CURRENT_TIMESTAMP) are naturals supplied by the caller of a
  tick, strictly increasing across ticks in reality but unconstrained here.
- External I/O (proxy probe, yt-dlp download, media upload, tweet creation,
  Reddit extraction) is an oracle record Env fixed for the duration of one
  tick; the decision logic applied to the oracle results (substring
  matching of error messages, status-code tests) is translated from the
  source verbatim.
- Python string operations are modelled on the character lists of Lean
  strings: len is the number of code points, s[:n] allows negative n with
  Python slicing semantics, str.strip removes Python whitespace at both
  ends, and the in operator is substring containment.
-/

/-- Python substring test over character lists: needle occurs contiguously in hay. -/
def listContainsSub (hay needle : List Char) : Bool :=
  match hay with
  | [] => needle.isEmpty
  | _ :: t => needle.isPrefixOf hay || listContainsSub t needle

/-- Python needle in hay for strings. -/
def strContains (hay needle : String) : Bool :=
  listContainsSub hay.toList needle.toList

/-- The whitespace set of Python str.strip (ASCII part). -/
def isPySpace (c : Char) : Bool :=
  c = ' ' || c = '\t' || c = '\n' || c = '\r' || c = '\x0b' || c = '\x0c'

/-- Python s.strip(): drop whitespace from both ends. -/
def pyStrip (s : String) : String :=
  String.mk (((s.toList.dropWhile isPySpace).reverse.dropWhile isPySpace).reverse)

/-- Python s[:n] for an integer n: nonnegative n keeps the first n
characters, negative n drops the last -n characters (clamped at 0). -/
def pyTake (s : String) (n : Int) : String :=
  if 0 ≤ n then String.mk (s.toList.take n.toNat)
  else String.mk (s.toList.take (s.toList.length - (-n).toNat))

/-- A row of the pending_posts table (src/main.py initialize_db): the
img_paths TEXT column holds a JSON list of strings, modelled directly as
the list it decodes to. -/
structure PendingEntry where
  post_id : String
  content : String
  img_paths : List String
  video_path : String
  attempts : Nat
  last_attempt : Nat
deriving DecidableEq

/-- The durable store of src/main.py: the seen_posts table and the
pending_posts table of the seen_posts.db SQLite file. -/
structure DB where
  seen : List String
  pending : List PendingEntry
deriving DecidableEq

/-- src/main.py is_post_seen: SELECT 1 FROM seen_posts WHERE post_id = ?. -/
def is_post_seen (st : DB) (pid : String) : Bool :=
  decide (pid ∈ st.seen)

/-- src/main.py mark_post_as_seen: INSERT OR IGNORE into seen_posts and
DELETE FROM pending_posts for the same id, in one transaction. -/
def mark_post_as_seen (st : DB) (pid : String) : DB :=
  { seen := if pid ∈ st.seen then st.seen else pid :: st.seen,
    pending := st.pending.filter (fun e => decide (e.post_id ≠ pid)) }

/-- src/main.py remove_pending_post: DELETE FROM pending_posts WHERE post_id = ?. -/
def remove_pending_post (st : DB) (pid : String) : DB :=
  { st with pending := st.pending.filter (fun e => decide (e.post_id ≠ pid)) }

/-- src/main.py save_pending_post: DELETE FROM pending_posts (all rows),
then INSERT the new row with attempts = 0 and last_attempt = CURRENT_TIMESTAMP. -/
def save_pending_post (st : DB) (pid content : String) (img_paths : List String)
    (video_path : String) (now : Nat) : DB :=
  { st with pending := [⟨pid, content, img_paths, video_path, 0, now⟩] }

/-- Ordering of pending rows by the last_attempt column. -/
def leLast (a b : PendingEntry) : Prop := a.last_attempt ≤ b.last_attempt

instance : DecidableRel leLast := fun a b => Nat.decLe a.last_attempt b.last_attempt

instance : IsTotal PendingEntry leLast := ⟨fun a b => Nat.le_total a.last_attempt b.last_attempt⟩

instance : IsTrans PendingEntry leLast := ⟨fun _ _ _ => Nat.le_trans⟩

/-- src/main.py get_pending_posts: SELECT rows WHERE attempts < 3 ORDER BY
last_attempt ASC. -/
def get_pending_posts (st : DB) : List PendingEntry :=
  List.insertionSort leLast (st.pending.filter (fun e => decide (e.attempts < 3)))

example : pyStrip "  ab \n" = "ab" := by decide

example : strContains "403 forbidden today" "forbidden" = true := by decide

example : strContains "ok" "forbidden" = false := by decide

example : pyTake "abcdef" (-2) = "abcd" := by decide

example : pyTake "abcdef" 3 = "abc" := by decide

/-- A post dictionary as produced by extractContent in src/reddit.py and
consumed by process_posts in src/main.py; absent keys are the empty string
or the empty list (the defaults of src/reddit.py parse_reddit_html). -/
structure Post where
  id : String
  title : String
  content : String
  url : String
  s_img : String
  m_img : List String
  video : String
deriving DecidableEq

/-- Tweet text composition of src/main.py process_posts (lines 817 to 840):
title and body are joined with a newline and stripped; with both a text and
a url the text is cut to 277 - len(url) characters and an ellipsis plus
newline plus url appended when it is longer than that limit, otherwise the
two are joined by a newline; with one of them empty the nonempty one is cut
to 280 characters. The final utf-8 encode/decode round trip of the source
is the identity on Lean strings. -/
def composeTweet (title body url : String) : String :=
  let pc := pyStrip (title ++ "\n" ++ body)
  if pc ≠ "" ∧ url ≠ "" then
    let limit : Int := 277 - (url.toList.length : Int)
    if (pc.toList.length : Int) > limit then
      pyTake pc limit ++ "...\n" ++ url
    else
      pc ++ "\n" ++ url
  else
    pyTake (if pc ≠ "" then pc else url) 280

/-- A tweepy.TweepyException as inspected by the retry classifier: the
optional HTTP status of the attached response, the response body text, and
the str() rendering of the exception. -/
structure TweepyErr where
  status : Option Nat
  body : String
  msg : String
deriving DecidableEq

/-- The fatal marker substrings of src/main.py _is_unrecoverable_tweepy_error. -/
def fatalMarkers : List String :=
  ["not allowed to post a video longer", "your media ids are invalid",
   "media id is invalid", "unsupported", "file type not supported",
   "duration", "too long", "invalid media", "video too long", "403 forbidden"]

/-- Python str.lower for the ASCII strings the classifier compares. -/
def pyLower (s : String) : String :=
  String.mk (s.toList.map Char.toLower)

/-- src/main.py _is_unrecoverable_tweepy_error: with a response of status
400 or 403 whose body text contains a fatal marker the error is
unrecoverable; independently of that, a fatal marker in str(exc) also makes
it unrecoverable. -/
def is_unrecoverable_tweepy_error (e : TweepyErr) : Bool :=
  (match e.status with
   | some code =>
     if code = 400 ∨ code = 403 then
       fatalMarkers.any (fun m => strContains (pyLower e.body) m)
     else false
   | none => false)
  || fatalMarkers.any (fun m => strContains (pyLower e.msg) m)

/-- The fatal error keywords checked against the video download error string
in src/main.py post_to_twitter (lines 655 to 659). -/
def videoFatalErrors : List String :=
  ["copyright", "404", "forbidden", "not permitted", "unavailable",
   "audio_not_found_fatal", "no_video_metadata", "invalid_post_url",
   "proxy_endpoint_not_supported_fatal", "bad_endpoint"]

/-- Oracle for the external world during one tick: the proxy probe, the
result triple of download_reddit_video_ytdlp_auth, the video upload, the
per-index image download and upload, the create_tweet call, and the
extractContent call (error = the call raised). -/
structure Env where
  proxyOnline : Bool
  videoDL : Option String × Option Nat × Option String
  videoUpload : Except TweepyErr Nat
  imgDownload : Nat → Option String
  imgUpload : Nat → Option Nat
  tweet : Except TweepyErr Nat
  extracted : Except Unit (List Post)

instance : Inhabited Env :=
  ⟨⟨false, (none, none, none), Except.error ⟨none, "", ""⟩,
    fun _ => none, fun _ => none, Except.error ⟨none, "", ""⟩, Except.error ()⟩⟩

/-- One invocation of the Publisher Adapter, client.create_tweet in
src/main.py post_to_twitter, tagged with the id of the item on whose behalf
the call is made. -/
structure PublishCall where
  post_id : Option String
  text : String
  media_ids : List Nat
deriving DecidableEq

/-- Result of the modelled post_to_twitter: the store after the call, the
(success, fatal) pair the source returns, and the create_tweet calls made. -/
structure PTResult where
  st : DB
  success : Bool
  fatal : Bool
  calls : List PublishCall
deriving DecidableEq

/-- Python truthiness of the post_id argument (None and the empty string
are falsy). -/
def pidTruthy : Option String → Bool
  | none => false
  | some s => decide (s ≠ "")

/-- remove_pending_post guarded on a possibly absent id. -/
def removeOpt (st : DB) : Option String → DB
  | none => st
  | some pid => remove_pending_post st pid

/-- The image loop of src/main.py post_to_twitter (lines 689 to 733): for
each of the first four urls, skip blank urls, fix protocol-less urls, skip
urls outside the two Reddit image domains, download, upload, and collect
the media id; download or upload failures are logged and skipped. -/
def collectImages (env : Env) : Nat → List String → List Nat
  | _, [] => []
  | idx, url :: rest =>
    if url = "" ∨ pyStrip url = "" then collectImages env (idx + 1) rest
    else
      let url2 := if "//".isPrefixOf url then "https:" ++ url else url
      if !(strContains url2 "i.redd.it" || strContains url2 "preview.redd.it") then
        collectImages env (idx + 1) rest
      else
        match env.imgDownload idx with
        | none => collectImages env (idx + 1) rest
        | some _ =>
          match env.imgUpload idx with
          | none => collectImages env (idx + 1) rest
          | some mid => mid :: collectImages env (idx + 1) rest

/-- The final TWEET section of src/main.py post_to_twitter (lines 736 to
755): with text or media present, create_tweet is invoked; on success the
function returns (True, False); on a TweepyException the classifier is
consulted, and with a truthy post_id an unrecoverable error removes the
pending row and returns (False, True), anything else returns (False,
False); with neither text nor media nothing is tweeted and (False, False)
is returned. -/
def tweetSection (env : Env) (st : DB) (text : String) (media_ids : List Nat)
    (post_id : Option String) : PTResult :=
  if text ≠ "" ∨ media_ids ≠ [] then
    match env.tweet with
    | Except.ok _ => ⟨st, true, false, [⟨post_id, text, media_ids⟩]⟩
    | Except.error exc =>
      if is_unrecoverable_tweepy_error exc ∧ pidTruthy post_id then
        ⟨removeOpt st post_id, false, true, [⟨post_id, text, media_ids⟩]⟩
      else
        ⟨st, false, false, [⟨post_id, text, media_ids⟩]⟩
  else
    ⟨st, false, false, []⟩

/-- src/main.py post_to_twitter. Video branch: proxy offline returns
(False, False); a too_long download error removes the pending row (for a
truthy id) and returns (False, True); a failed download whose error string
contains a fatal keyword does the same, other download failures return
(False, False); an upload error classified unrecoverable (with truthy id)
removes the pending row and returns (False, True), else (False, False); a
successful upload proceeds to the tweet section with the video media id.
Image branch: at most four images are collected. Then the tweet section
runs. -/
def post_to_twitter (env : Env) (st : DB) (text : String) (img_paths : List String)
    (video_path : String) (post_id : Option String) : PTResult :=
  if video_path ≠ "" then
    if env.proxyOnline = false then ⟨st, false, false, []⟩
    else
      match env.videoDL with
      | (filename, _, err) =>
        if err = some "too_long" then
          ⟨if pidTruthy post_id then removeOpt st post_id else st, false, true, []⟩
        else
          match filename with
          | none =>
            if (match err with
                | some e => videoFatalErrors.any (fun k => strContains (pyLower e) k)
                | none => false) then
              ⟨if pidTruthy post_id then removeOpt st post_id else st, false, true, []⟩
            else ⟨st, false, false, []⟩
          | some _ =>
            match env.videoUpload with
            | Except.error exc =>
              if pidTruthy post_id ∧ is_unrecoverable_tweepy_error exc then
                ⟨removeOpt st post_id, false, true, []⟩
              else ⟨st, false, false, []⟩
            | Except.ok mid => tweetSection env st text [mid] post_id
  else if img_paths ≠ [] then
    tweetSection env st text (collectImages env 0 (img_paths.take 4)) post_id
  else
    tweetSection env st text [] post_id

/-- Whether the item that a tick processed came from the pending queue or
from content discovery (extractContent). -/
inductive ItemSource
  | fromPending
  | fromDiscovery
deriving DecidableEq

/-- Observable log of one tick: the items driven through post_to_twitter
with their source, whether extractContent was invoked, the create_tweet
calls made, the ids passed to mark_post_as_seen, and the ids whose
processing ended with fatal = True. -/
structure TickLog where
  processed : List (String × ItemSource)
  discovery : Bool
  calls : List PublishCall
  marked : List String
  fatalIds : List String
deriving DecidableEq

/-- A tick outcome: the store after the tick plus the tick log. -/
structure TickResult where
  st : DB
  log : TickLog
deriving DecidableEq

/-- Image url selection of src/main.py process_posts (lines 796 to 808):
a gallery takes priority (first four urls), else the single image, then
blank urls are filtered out. -/
def imgPathsOf (post : Post) : List String :=
  let base :=
    if post.m_img ≠ [] then post.m_img.take 4
    else if post.s_img ≠ "" then [post.s_img]
    else []
  base.filter (fun u => decide (u ≠ "") && decide (pyStrip u ≠ ""))

/-- The discovery loop of src/main.py process_posts (lines 792 to 857):
walk the extracted posts, skip seen ones, compose the tweet text for the
first unseen post, drive it through post_to_twitter, then mark seen on
success, mark seen on fatal failure, or save a pending row otherwise; in
every one of those three branches the function returns. -/
def processLoop (env : Env) (now : Nat) : DB → List Post → TickResult
  | st, [] => ⟨st, ⟨[], true, [], [], []⟩⟩
  | st, post :: rest =>
    if is_post_seen st post.id then processLoop env now st rest
    else
      let img_paths := imgPathsOf post
      let content := composeTweet post.title post.content post.url
      let r := post_to_twitter env st content img_paths post.video (some post.id)
      if r.success then
        ⟨mark_post_as_seen r.st post.id,
         ⟨[(post.id, ItemSource.fromDiscovery)], true, r.calls, [post.id], []⟩⟩
      else if r.fatal then
        ⟨mark_post_as_seen r.st post.id,
         ⟨[(post.id, ItemSource.fromDiscovery)], true, r.calls, [post.id], [post.id]⟩⟩
      else
        ⟨save_pending_post r.st post.id content img_paths post.video now,
         ⟨[(post.id, ItemSource.fromDiscovery)], true, r.calls, [], []⟩⟩

/-- src/main.py process_posts, one scheduler tick: with a retryable pending
row present its first row is retried (success marks it seen, fatal leaves
the store as post_to_twitter left it, a retryable failure changes nothing);
without one, extractContent is consulted (an exception aborts the tick) and
the discovery loop runs. -/
def process_posts (env : Env) (now : Nat) (st : DB) : TickResult :=
  match get_pending_posts st with
  | [] =>
    match env.extracted with
    | Except.error _ => ⟨st, ⟨[], true, [], [], []⟩⟩
    | Except.ok posts => processLoop env now st posts
  | p :: _ =>
    let r := post_to_twitter env st p.content p.img_paths p.video_path (some p.post_id)
    if r.success then
      ⟨mark_post_as_seen r.st p.post_id,
       ⟨[(p.post_id, ItemSource.fromPending)], false, r.calls, [p.post_id], []⟩⟩
    else if r.fatal then
      ⟨r.st, ⟨[(p.post_id, ItemSource.fromPending)], false, r.calls, [], [p.post_id]⟩⟩
    else
      ⟨r.st, ⟨[(p.post_id, ItemSource.fromPending)], false, r.calls, [], []⟩⟩

/-- The input of one tick: its environment oracle and its clock value. -/
structure TickIn where
  env : Env
  now : Nat

instance : Inhabited TickIn := ⟨⟨default, 0⟩⟩

/-- Run a sequence of ticks from a store, returning the final store. -/
def runFrom (st : DB) : List TickIn → DB
  | [] => st
  | t :: ts => runFrom (process_posts t.env t.now st).st ts

/-- The store right before tick n of a run. -/
def stateAt (st0 : DB) (ins : List TickIn) (n : Nat) : DB :=
  runFrom st0 (ins.take n)

/-- The log of tick n of a run. -/
def logAt (st0 : DB) (ins : List TickIn) (n : Nat) : TickLog :=
  (process_posts (ins.getD n default).env (ins.getD n default).now (stateAt st0 ins n)).log

/-- Store sanity invariant maintained by the code: no pending row is for an
id already in the seen set (mark_post_as_seen deletes the pending row in the
same transaction, and save_pending_post is only reached for unseen ids). -/
def StoreInv (st : DB) : Prop := ∀ e ∈ st.pending, e.post_id ∉ st.seen

example :
    (process_posts
      ⟨true, (none, none, none), Except.error ⟨none, "", ""⟩, fun _ => none, fun _ => none,
       Except.ok 7, Except.ok [⟨"a", "hello", "", "http://u", "", [], ""⟩]⟩
      3 ⟨[], []⟩).st.seen = ["a"] := by decide

example :
    (process_posts
      ⟨true, (none, none, none), Except.error ⟨none, "", ""⟩, fun _ => none, fun _ => none,
       Except.error ⟨none, "", "connection reset"⟩,
       Except.ok [⟨"a", "hello", "", "http://u", "", [], ""⟩]⟩
      3 ⟨[], []⟩).st.pending =
      [⟨"a", "hello\nhttp://u", [], "", 0, 3⟩] := by decide

/-- The configured cap of src/queue_manager.py: MAX_JSON_BATCHES = 2. -/
def MAX_JSON_BATCHES : Nat := 2

/-- A row of the json_batches table of src/queue_manager.py: the
posts_json TEXT column is modelled as the post list it decodes to. -/
structure Batch where
  batch_id : Nat
  subreddit : String
  posts : List Post
  total_posts : Nat
  remaining_posts : Int
  fetched_at : Nat
deriving DecidableEq

/-- The store of src/queue_manager.py: the json_batches, seen_posts and
pending_posts tables of the same seen_posts.db file. -/
structure QState where
  json_batches : List Batch
  seen_posts : List String
  pending_posts : List PendingEntry
deriving DecidableEq

/-- Ordering of batches by the fetched_at column. -/
def leFetched (a b : Batch) : Prop := a.fetched_at ≤ b.fetched_at

instance : DecidableRel leFetched := fun a b => Nat.decLe a.fetched_at b.fetched_at

instance : IsTotal Batch leFetched := ⟨fun a b => Nat.le_total a.fetched_at b.fetched_at⟩

instance : IsTrans Batch leFetched := ⟨fun _ _ _ => Nat.le_trans⟩

/-- DELETE FROM json_batches WHERE batch_id = ?. -/
def deleteBatch (st : QState) (bid : Nat) : QState :=
  { st with json_batches := st.json_batches.filter (fun b => decide (b.batch_id ≠ bid)) }

/-- UPDATE json_batches SET remaining_posts = ? WHERE batch_id = ?. -/
def updateRemaining (st : QState) (bid : Nat) (r : Int) : QState :=
  { st with json_batches :=
      st.json_batches.map (fun b => if b.batch_id = bid then { b with remaining_posts := r } else b) }

/-- src/queue_manager.py add_json_batch: count the stored batches; if the
count is at least MAX_JSON_BATCHES, delete the count - MAX_JSON_BATCHES + 1
batches with the oldest fetched_at; then insert the new batch with
remaining_posts = total_posts = len(posts). The fresh AUTOINCREMENT primary
key and the CURRENT_TIMESTAMP are parameters newId and now. -/
def add_json_batch (st : QState) (posts : List Post) (sub : String)
    (newId : Nat) (now : Nat) : QState :=
  let count := st.json_batches.length
  let st1 :=
    if MAX_JSON_BATCHES ≤ count then
      let olds := ((List.insertionSort leFetched st.json_batches).take
        (count - MAX_JSON_BATCHES + 1)).map Batch.batch_id
      { st with json_batches :=
          st.json_batches.filter (fun b => decide (b.batch_id ∉ olds)) }
    else st
  { st1 with json_batches :=
      st1.json_batches ++ [⟨newId, sub, posts, posts.length, (posts.length : Int), now⟩] }

/-- The batch scan of src/queue_manager.py get_next_unposted_post over the
snapshot of batches ordered by fetched_at ascending: the first post of the
batch whose id is not in seen_posts is returned after decrementing the
remaining_posts counter (deleting the batch when it reaches zero); a batch
with no unseen post is deleted and the scan moves on. -/
def scanBatches (st : QState) : List Batch → QState × Option (Nat × Post)
  | [] => (st, none)
  | b :: rest =>
    match b.posts.find? (fun p => decide (p.id ∉ st.seen_posts)) with
    | some post =>
      let newRem := b.remaining_posts - 1
      let st1 := updateRemaining st b.batch_id newRem
      let st2 := if newRem ≤ 0 then deleteBatch st1 b.batch_id else st1
      (st2, some (b.batch_id, post))
    | none => scanBatches (deleteBatch st b.batch_id) rest

/-- src/queue_manager.py get_next_unposted_post: scan all stored batches,
oldest fetched_at first, for a post whose id is not yet in seen_posts. -/
def get_next_unposted_post (st : QState) : QState × Option (Nat × Post) :=
  scanBatches st (List.insertionSort leFetched st.json_batches)

example :
    (get_next_unposted_post
      ⟨[⟨1, "s", [⟨"x", "t", "", "u", "", [], ""⟩], 1, 1, 0⟩], ["x"], []⟩).2 = none := by
  decide

example :
    (get_next_unposted_post
      ⟨[⟨1, "s", [⟨"x", "t", "", "u", "", [], ""⟩], 1, 1, 0⟩], [], []⟩).2 =
      some (1, ⟨"x", "t", "", "u", "", [], ""⟩) := by decide

example :
    (add_json_batch ⟨[⟨1, "s", [], 0, 0, 0⟩, ⟨2, "s", [], 0, 0, 5⟩], [], []⟩
      [] "t" 3 9).json_batches.map Batch.batch_id = [2, 3] := by decide

set_option maxRecDepth 20000 in
/-- C9: the claim says every composed tweet text is at most 280 characters.
It is false on the code: in the truncation branch the composed text is
pyTake pc (277 - len(url)) ++ "...\n" ++ url, of length
(277 - len(url)) + 4 + len(url) = 281. With a 300-character title and an
8-character url the composed text has exactly 281 characters. -/
theorem c9_truncated_tweet_is_281_chars :
    280 < (composeTweet (String.mk (List.replicate 300 'a')) "" "12345678").length ∧
    (composeTweet (String.mk (List.replicate 300 'a')) "" "12345678").length = 281 := by
  decide

/-- C2: the claim says each retryable failure of a stored pending entry
increments its attempts counter, making it ineligible after three failures.
It is false on the code: no code path ever increments attempts
(save_pending_post always writes 0 and the pending retry path of
process_posts writes nothing on a retryable failure), so after three ticks
that each fail retryably the stored entry still has attempts = 0 and is
still returned by get_pending_posts. -/
theorem c2_attempts_never_incremented :
    (runFrom ⟨[], [⟨"d", "txt", [], "", 0, 5⟩]⟩
      (List.replicate 3
        ⟨⟨true, (none, none, none), Except.error ⟨none, "", ""⟩, fun _ => none,
          fun _ => none, Except.error ⟨none, "", "connection reset by peer"⟩,
          Except.ok []⟩, 9⟩) =
      ⟨[], [⟨"d", "txt", [], "", 0, 5⟩]⟩) ∧
    get_pending_posts ⟨[], [⟨"d", "txt", [], "", 0, 5⟩]⟩ = [⟨"d", "txt", [], "", 0, 5⟩] := by
  decide

/-- C1 counterexample: a tick that takes item p from the pending queue and
fails with a fatally classified tweet error (message contains the marker
word unsupported) removes the pending row but does not add p to the seen
set, contradicting the claim that a Fatal classification always puts the
id into seen_posts regardless of the item source. -/
theorem c1_pending_fatal_not_marked_seen :
    "p" ∈ (process_posts
        ⟨true, (none, none, none), Except.error ⟨none, "", ""⟩, fun _ => none,
         fun _ => none, Except.error ⟨none, "", "unsupported media"⟩, Except.ok []⟩
        1 ⟨[], [⟨"p", "hello", [], "", 0, 0⟩]⟩).log.fatalIds ∧
    "p" ∉ (process_posts
        ⟨true, (none, none, none), Except.error ⟨none, "", ""⟩, fun _ => none,
         fun _ => none, Except.error ⟨none, "", "unsupported media"⟩, Except.ok []⟩
        1 ⟨[], [⟨"p", "hello", [], "", 0, 0⟩]⟩).st.seen ∧
    (process_posts
        ⟨true, (none, none, none), Except.error ⟨none, "", ""⟩, fun _ => none,
         fun _ => none, Except.error ⟨none, "", "unsupported media"⟩, Except.ok []⟩
        1 ⟨[], [⟨"p", "hello", [], "", 0, 0⟩]⟩).st.pending = [] := by
  decide

/-- C3 counterexample: a newly discovered item with empty text, no images
and no video is not treated as Fatal: the tick makes no create_tweet call,
classifies nothing as fatal, leaves the seen set without the id, and saves
the empty item as a pending row for retry, contradicting the claim. -/
theorem c3_empty_payload_not_fatal :
    (process_posts
        ⟨true, (none, none, none), Except.error ⟨none, "", ""⟩, fun _ => none,
         fun _ => none, Except.ok 1, Except.ok [⟨"e", "", "", "", "", [], ""⟩]⟩
        5 ⟨[], []⟩).log.calls = [] ∧
    (process_posts
        ⟨true, (none, none, none), Except.error ⟨none, "", ""⟩, fun _ => none,
         fun _ => none, Except.ok 1, Except.ok [⟨"e", "", "", "", "", [], ""⟩]⟩
        5 ⟨[], []⟩).log.fatalIds = [] ∧
    "e" ∉ (process_posts
        ⟨true, (none, none, none), Except.error ⟨none, "", ""⟩, fun _ => none,
         fun _ => none, Except.ok 1, Except.ok [⟨"e", "", "", "", "", [], ""⟩]⟩
        5 ⟨[], []⟩).st.seen ∧
    (process_posts
        ⟨true, (none, none, none), Except.error ⟨none, "", ""⟩, fun _ => none,
         fun _ => none, Except.ok 1, Except.ok [⟨"e", "", "", "", "", [], ""⟩]⟩
        5 ⟨[], []⟩).st.pending = [⟨"e", "", [], "", 0, 5⟩] := by
  decide

/-- C8 counterexample: get_next_unposted_post filters candidates only
against seen_posts, not against pending_posts: with the id x stored in
pending_posts and a batch containing post x, the post is returned even
though a pending row for x exists at that moment, contradicting the claim. -/
theorem c8_pending_id_returned :
    (get_next_unposted_post
        ⟨[⟨1, "s", [⟨"x", "t", "", "u", "", [], ""⟩], 1, 1, 0⟩], [],
         [⟨"x", "c", [], "", 0, 0⟩]⟩).2 = some (1, ⟨"x", "t", "", "u", "", [], ""⟩) ∧
    (⟨"x", "c", [], "", 0, 0⟩ : PendingEntry) ∈
      (⟨[⟨1, "s", [⟨"x", "t", "", "u", "", [], ""⟩], 1, 1, 0⟩], [],
        [⟨"x", "c", [], "", 0, 0⟩]⟩ : QState).pending_posts := by
  decide

theorem removeOpt_seen (st : DB) (pid : Option String) : (removeOpt st pid).seen = st.seen := by
  cases pid <;> rfl

theorem removeOpt_pending_sub (st : DB) (pid : Option String) (e : PendingEntry) :
    e ∈ (removeOpt st pid).pending → e ∈ st.pending := by
  cases pid with
  | none => exact id
  | some i => exact fun h => (List.mem_filter.mp h).1

theorem removeOpt_pending_length (st : DB) (pid : Option String) :
    (removeOpt st pid).pending.length ≤ st.pending.length := by
  cases pid with
  | none => exact Nat.le_refl _
  | some i => exact List.length_filter_le _ _

theorem pt_shape (env : Env) (st : DB) (text : String) (imgs : List String)
    (video : String) (pid : Option String) :
    (post_to_twitter env st text imgs video pid).st = st ∨
    (post_to_twitter env st text imgs video pid).st = removeOpt st pid := by
  obtain ⟨pr, ⟨f, d, er⟩, vu, idl, iul, tw, ex⟩ := env
  cases f <;> cases vu <;> cases tw <;>
    simp only [post_to_twitter, tweetSection] <;>
    split_ifs <;>
    first
      | exact Or.inl rfl
      | exact Or.inr rfl

theorem pt_seen (env : Env) (st : DB) (text : String) (imgs : List String)
    (video : String) (pid : Option String) :
    (post_to_twitter env st text imgs video pid).st.seen = st.seen := by
  rcases pt_shape env st text imgs video pid with h | h <;> rw [h]
  exact removeOpt_seen st pid

theorem pt_pending_sub (env : Env) (st : DB) (text : String) (imgs : List String)
    (video : String) (pid : Option String) (e : PendingEntry) :
    e ∈ (post_to_twitter env st text imgs video pid).st.pending → e ∈ st.pending := by
  rcases pt_shape env st text imgs video pid with h | h <;> rw [h]
  · exact id
  · exact removeOpt_pending_sub st pid e

theorem pt_pending_length (env : Env) (st : DB) (text : String) (imgs : List String)
    (video : String) (pid : Option String) :
    (post_to_twitter env st text imgs video pid).st.pending.length ≤ st.pending.length := by
  rcases pt_shape env st text imgs video pid with h | h <;> rw [h]
  exact removeOpt_pending_length st pid

theorem pt_calls_pid (env : Env) (st : DB) (text : String) (imgs : List String)
    (video : String) (pid : Option String) (c : PublishCall) :
    c ∈ (post_to_twitter env st text imgs video pid).calls → c.post_id = pid := by
  obtain ⟨pr, ⟨f, d, er⟩, vu, idl, iul, tw, ex⟩ := env
  cases f <;> cases vu <;> cases tw <;>
    simp only [post_to_twitter, tweetSection] <;>
    split_ifs <;>
    simp only [List.mem_singleton, List.not_mem_nil] <;>
    first
      | exact fun h => absurd h (by simp)
      | exact fun h => by rw [h]

theorem pt_fatal_st (env : Env) (st : DB) (text : String) (imgs : List String)
    (video : String) (i : String) (hi : i ≠ "") :
    (post_to_twitter env st text imgs video (some i)).fatal = true →
    (post_to_twitter env st text imgs video (some i)).st = remove_pending_post st i := by
  obtain ⟨pr, ⟨f, d, er⟩, vu, idl, iul, tw, ex⟩ := env
  have hpt : pidTruthy (some i) = true := by simp [pidTruthy, hi]
  cases f <;> cases vu <;> cases tw <;>
    simp only [post_to_twitter, tweetSection, hpt, if_true, removeOpt] <;>
    split_ifs <;>
    simp_all [removeOpt]

/-- C6: get_pending_posts returns exactly the pending rows with
attempts < 3, ordered by last_attempt ascending; rows at or above the
limit are never returned. -/
theorem c6_get_pending_posts_retryable_sorted :
    ∀ st : DB,
      (∀ e : PendingEntry, e ∈ get_pending_posts st ↔ e ∈ st.pending ∧ e.attempts < 3) ∧
      (get_pending_posts st).Pairwise leLast := by
  intro st
  constructor
  · intro e
    rw [get_pending_posts, (List.perm_insertionSort leLast _).mem_iff, List.mem_filter]
    simp
  · exact List.sorted_insertionSort leLast _

theorem processLoop_pending_length (env : Env) (now : Nat) (posts : List Post) :
    ∀ st : DB, st.pending.length ≤ 1 → (processLoop env now st posts).st.pending.length ≤ 1 := by
  induction posts with
  | nil => exact fun st h => h
  | cons post rest ih =>
    intro st h
    simp only [processLoop]
    split
    · exact ih st h
    · split
      · refine Nat.le_trans (Nat.le_trans (List.length_filter_le _ _) ?_) h
        exact pt_pending_length env st _ _ _ _
      · split
        · refine Nat.le_trans (Nat.le_trans (List.length_filter_le _ _) ?_) h
          exact pt_pending_length env st _ _ _ _
        · simp [save_pending_post]

/-- C5: the pending queue is single-slot: save_pending_post leaves exactly
the row it just saved (deleting every previously stored row first), and a
store with at most one pending row keeps at most one pending row across any
tick, so two pending rows never coexist. -/
theorem c5_single_slot :
    (∀ (st : DB) (pid content : String) (imgs : List String) (video : String) (now : Nat),
      (save_pending_post st pid content imgs video now).pending =
        [⟨pid, content, imgs, video, 0, now⟩]) ∧
    (∀ (env : Env) (now : Nat) (st : DB), st.pending.length ≤ 1 →
      (process_posts env now st).st.pending.length ≤ 1) := by
  constructor
  · intro st pid content imgs video now
    rfl
  · intro env now st h
    simp only [process_posts]
    cases hgp : get_pending_posts st with
    | nil =>
      simp only [hgp]
      cases hex : env.extracted with
      | error e => simp only [hex]; exact h
      | ok posts => simp only [hex]; exact processLoop_pending_length env now posts st h
    | cons p rest =>
      simp only [hgp]
      split
      · refine Nat.le_trans (Nat.le_trans (List.length_filter_le _ _) ?_) h
        exact pt_pending_length env st _ _ _ _
      · split
        · exact Nat.le_trans (pt_pending_length env st _ _ _ _) h
        · exact Nat.le_trans (pt_pending_length env st _ _ _ _) h

/-- Witness for c5_single_slot at concrete inputs. -/
theorem c5_single_slot_witness :
    (save_pending_post ⟨["a"], [⟨"q", "c", [], "", 0, 1⟩]⟩ "p" "c" [] "" 7).pending =
      [⟨"p", "c", [], "", 0, 7⟩] ∧
    (process_posts default 3 ⟨[], [⟨"q", "c", [], "", 0, 1⟩]⟩).st.pending.length ≤ 1 :=
  ⟨c5_single_slot.1 _ _ _ _ _ _,
   c5_single_slot.2 default 3 ⟨[], [⟨"q", "c", [], "", 0, 1⟩]⟩ (by decide)⟩

theorem pt_empty_payload (env : Env) (st : DB) (imgs : List String) (pid : Option String)
    (h : collectImages env 0 (imgs.take 4) = []) :
    post_to_twitter env st "" imgs "" pid = ⟨st, false, false, []⟩ := by
  by_cases himgs : imgs = []
  · subst himgs; rfl
  · simp [post_to_twitter, himgs, h, tweetSection]

theorem processLoop_fatal_outcome (env : Env) (now : Nat) (posts : List Post) :
    ∀ (st : DB) (i : String),
      i ∈ (processLoop env now st posts).log.fatalIds →
      (∀ e ∈ (processLoop env now st posts).st.pending, e.post_id ≠ i) ∧
      ((i, ItemSource.fromDiscovery) ∈ (processLoop env now st posts).log.processed →
        i ∈ (processLoop env now st posts).st.seen) ∧
      ((i, ItemSource.fromPending) ∈ (processLoop env now st posts).log.processed →
        (processLoop env now st posts).st.seen = st.seen) := by
  induction posts with
  | nil => intro st i hmem; exact absurd hmem (List.not_mem_nil i)
  | cons post rest ih =>
    intro st i
    simp only [processLoop]
    split
    · exact ih st i
    · split
      · intro hmem; exact absurd hmem (List.not_mem_nil i)
      · split
        · intro hmem
          rw [List.mem_singleton] at hmem
          subst hmem
          refine ⟨?_, ?_, ?_⟩
          · intro e he
            have := (List.mem_filter.mp he).2
            simpa using this
          · intro _
            simp only [mark_post_as_seen]
            split
            · assumption
            · exact List.mem_cons_self _ _
          · intro hsrc
            rw [List.mem_singleton] at hsrc
            exact absurd (congrArg Prod.snd hsrc) (by simp)
        · intro hmem; exact absurd hmem (List.not_mem_nil i)

/-- C1, amended: whenever the processed item (with non-empty id) fails with
a Fatal classification, no pending row for that id remains after the tick;
a newly discovered item is additionally marked seen, but an item taken from
the pending queue is not: its tick leaves the seen set unchanged. -/
theorem c1_fatal_outcome :
    ∀ (env : Env) (now : Nat) (st : DB) (i : String), i ≠ "" →
      i ∈ (process_posts env now st).log.fatalIds →
      (∀ e ∈ (process_posts env now st).st.pending, e.post_id ≠ i) ∧
      ((i, ItemSource.fromDiscovery) ∈ (process_posts env now st).log.processed →
        i ∈ (process_posts env now st).st.seen) ∧
      ((i, ItemSource.fromPending) ∈ (process_posts env now st).log.processed →
        (process_posts env now st).st.seen = st.seen) := by
  intro env now st i hi
  simp only [process_posts]
  cases hgp : get_pending_posts st with
  | nil =>
    cases hex : env.extracted with
    | error e => dsimp only; intro hmem; exact absurd hmem (List.not_mem_nil i)
    | ok posts => dsimp only; exact processLoop_fatal_outcome env now posts st i
  | cons p rest =>
    dsimp only
    split
    · intro hmem; exact absurd hmem (List.not_mem_nil i)
    · split
      next hfatal =>
        intro hmem
        rw [List.mem_singleton] at hmem
        subst hmem
        refine ⟨?_, ?_, ?_⟩
        · intro e he
          rw [pt_fatal_st env st p.content p.img_paths p.video_path p.post_id hi hfatal] at he
          have := (List.mem_filter.mp he).2
          simpa using this
        · intro hsrc
          rw [List.mem_singleton] at hsrc
          exact absurd (congrArg Prod.snd hsrc) (by simp)
        · intro _
          exact pt_seen env st p.content p.img_paths p.video_path (some p.post_id)
      · intro hmem; exact absurd hmem (List.not_mem_nil i)

/-- Witness for c1_fatal_outcome: a concrete discovery tick with a fatally
classified tweet error marks the item seen. -/
theorem c1_fatal_outcome_witness :
    "n" ∈ (process_posts
        ⟨true, (none, none, none), Except.error ⟨none, "", ""⟩, fun _ => none,
         fun _ => none, Except.error ⟨none, "", "unsupported media"⟩,
         Except.ok [⟨"n", "hi", "", "http://u", "", [], ""⟩]⟩
        2 ⟨[], []⟩).st.seen :=
  (c1_fatal_outcome
      ⟨true, (none, none, none), Except.error ⟨none, "", ""⟩, fun _ => none,
       fun _ => none, Except.error ⟨none, "", "unsupported media"⟩,
       Except.ok [⟨"n", "hi", "", "http://u", "", [], ""⟩]⟩
      2 ⟨[], []⟩ "n" (by decide) (by decide)).2.1 (by decide)

/-- C3, amended: an item with empty composed text and no materialized media
fails the publish step immediately, with no create_tweet call and the store
untouched, but the failure is reported retryable (fatal = False) rather
than Fatal; a newly discovered such item is therefore saved to
pending_posts and its id is not added to the seen set. -/
theorem c3_empty_payload_no_publish :
    (∀ (env : Env) (st : DB) (imgs : List String) (pid : Option String),
      collectImages env 0 (imgs.take 4) = [] →
      post_to_twitter env st "" imgs "" pid = ⟨st, false, false, []⟩) ∧
    (∀ (env : Env) (now : Nat) (st : DB) (post : Post),
      get_pending_posts st = [] → env.extracted = Except.ok [post] →
      is_post_seen st post.id = false →
      composeTweet post.title post.content post.url = "" →
      imgPathsOf post = [] → post.video = "" →
      (process_posts env now st).st.seen = st.seen ∧
      (process_posts env now st).st.pending = [⟨post.id, "", [], "", 0, now⟩] ∧
      (process_posts env now st).log.calls = [] ∧
      (process_posts env now st).log.fatalIds = []) := by
  constructor
  · exact pt_empty_payload
  · intro env now st post hgp hex hseen hcomp himg hvid
    have hpt := pt_empty_payload env st [] (some post.id) rfl
    simp only [process_posts, hgp, hex]
    simp only [processLoop, hseen, hcomp, himg, hvid, hpt]
    simp [save_pending_post]

/-- Witness for c3_empty_payload_no_publish at a concrete empty item. -/
theorem c3_empty_payload_no_publish_witness :
    (process_posts
        ⟨true, (none, none, none), Except.error ⟨none, "", ""⟩, fun _ => none,
         fun _ => none, Except.ok 1, Except.ok [⟨"w", "", "", "", "", [], ""⟩]⟩
        4 ⟨["z"], []⟩).st.pending = [⟨"w", "", [], "", 0, 4⟩] ∧
    (process_posts
        ⟨true, (none, none, none), Except.error ⟨none, "", ""⟩, fun _ => none,
         fun _ => none, Except.ok 1, Except.ok [⟨"w", "", "", "", "", [], ""⟩]⟩
        4 ⟨["z"], []⟩).log.calls = [] :=
  ⟨(c3_empty_payload_no_publish.2
      ⟨true, (none, none, none), Except.error ⟨none, "", ""⟩, fun _ => none,
       fun _ => none, Except.ok 1, Except.ok [⟨"w", "", "", "", "", [], ""⟩]⟩
      4 ⟨["z"], []⟩ ⟨"w", "", "", "", "", [], ""⟩
      (by decide) rfl (by decide) (by decide) (by decide) rfl).2.1,
   (c3_empty_payload_no_publish.2
      ⟨true, (none, none, none), Except.error ⟨none, "", ""⟩, fun _ => none,
       fun _ => none, Except.ok 1, Except.ok [⟨"w", "", "", "", "", [], ""⟩]⟩
      4 ⟨["z"], []⟩ ⟨"w", "", "", "", "", [], ""⟩
      (by decide) rfl (by decide) (by decide) (by decide) rfl).2.2.1⟩

theorem scanBatches_unseen (l : List Batch) :
    ∀ (st st' : QState) (bid : Nat) (p : Post),
      scanBatches st l = (st', some (bid, p)) → p.id ∉ st.seen_posts := by
  induction l with
  | nil =>
    intro st st' bid p h
    exact absurd (congrArg Prod.snd h) (by simp [scanBatches])
  | cons b rest ih =>
    intro st st' bid p h
    simp only [scanBatches] at h
    cases hf : b.posts.find? (fun q => decide (q.id ∉ st.seen_posts)) with
    | some q =>
      rw [hf] at h
      have hpair := congrArg Prod.snd h
      simp only at hpair
      have hpq : q = p := by
        have := Option.some.inj hpair
        exact congrArg Prod.snd this
      have hq := List.find?_some hf
      rw [hpq] at hq
      exact of_decide_eq_true hq
    | none =>
      rw [hf] at h
      exact ih (deleteBatch st b.batch_id) st' bid p h

/-- C8, amended: every candidate returned by get_next_unposted_post has an
id that is not in seen_posts at the time it is returned; the function does
not consult pending_posts, so the id may still have a pending row (see the
counterexample). -/
theorem c8_candidate_unseen :
    ∀ (st : QState) (bid : Nat) (p : Post),
      (get_next_unposted_post st).2 = some (bid, p) → p.id ∉ st.seen_posts := by
  intro st bid p h
  have hpair : scanBatches st (List.insertionSort leFetched st.json_batches) =
      ((get_next_unposted_post st).1, some (bid, p)) := by
    rw [← h]
    rfl
  exact scanBatches_unseen _ st _ bid p hpair

/-- Witness for c8_candidate_unseen at a concrete store. -/
theorem c8_candidate_unseen_witness :
    (⟨"y", "t", "", "u", "", [], ""⟩ : Post).id ∉
      (⟨[⟨1, "s", [⟨"y", "t", "", "u", "", [], ""⟩], 1, 1, 0⟩], ["z"], []⟩ : QState).seen_posts :=
  c8_candidate_unseen ⟨[⟨1, "s", [⟨"y", "t", "", "u", "", [], ""⟩], 1, 1, 0⟩], ["z"], []⟩
    1 ⟨"y", "t", "", "u", "", [], ""⟩ (by decide)

theorem length_filter_of_take_false {α : Type} (p : α → Bool) (l : List α) (m : Nat)
    (h : ∀ a ∈ l.take m, p a = false) :
    (l.filter p).length ≤ l.length - m := by
  conv_lhs => rw [← List.take_append_drop m l]
  rw [List.filter_append, List.length_append,
    List.filter_eq_nil_iff.mpr (fun a ha => by simp [h a ha])]
  simp only [List.length_nil, Nat.zero_add]
  calc ((l.drop m).filter p).length ≤ (l.drop m).length := List.length_filter_le _ _
    _ = l.length - m := List.length_drop m l

/-- C10: after every add_json_batch call at most MAX_JSON_BATCHES (2)
batches remain, the newly inserted batch is retained, and (for the real
table, whose AUTOINCREMENT primary keys are distinct and fresh) every
evicted batch has a fetched_at no newer than every retained old batch:
eviction is oldest-first. -/
theorem c10_batch_cap :
    ∀ (st : QState) (posts : List Post) (sub : String) (newId now : Nat),
      (add_json_batch st posts sub newId now).json_batches.length ≤ MAX_JSON_BATCHES ∧
      (⟨newId, sub, posts, posts.length, (posts.length : Int), now⟩ : Batch) ∈
        (add_json_batch st posts sub newId now).json_batches ∧
      ((st.json_batches.map Batch.batch_id).Nodup →
        newId ∉ st.json_batches.map Batch.batch_id →
        ∀ d ∈ st.json_batches, d ∉ (add_json_batch st posts sub newId now).json_batches →
        ∀ k ∈ st.json_batches, k ∈ (add_json_batch st posts sub newId now).json_batches →
        d.fetched_at ≤ k.fetched_at) := by
  intro st posts sub newId now
  by_cases hc : MAX_JSON_BATCHES ≤ st.json_batches.length
  case neg =>
    have hadd : (add_json_batch st posts sub newId now).json_batches =
        st.json_batches ++ [⟨newId, sub, posts, posts.length, (posts.length : Int), now⟩] := by
      simp only [add_json_batch, if_neg hc]
    have hlt : st.json_batches.length < MAX_JSON_BATCHES := Nat.lt_of_not_le hc
    refine ⟨?_, ?_, ?_⟩
    · rw [hadd, List.length_append, List.length_singleton]
      omega
    · rw [hadd]
      exact List.mem_append_right _ (List.mem_singleton.mpr rfl)
    · intro _ _ d hd hdnot k _ _
      have : d ∈ (add_json_batch st posts sub newId now).json_batches := by
        rw [hadd]; exact List.mem_append_left _ hd
      exact (hdnot this).elim
  case pos =>
    have hadd : (add_json_batch st posts sub newId now).json_batches =
        st.json_batches.filter
          (fun b => decide (b.batch_id ∉
            ((List.insertionSort leFetched st.json_batches).take
              (st.json_batches.length - MAX_JSON_BATCHES + 1)).map Batch.batch_id)) ++
          [⟨newId, sub, posts, posts.length, (posts.length : Int), now⟩] := by
      simp only [add_json_batch, if_pos hc]
    have hperm : List.Perm (List.insertionSort leFetched st.json_batches) st.json_batches :=
      List.perm_insertionSort leFetched st.json_batches
    have hslen : (List.insertionSort leFetched st.json_batches).length =
        st.json_batches.length := hperm.length_eq
    refine ⟨?_, ?_, ?_⟩
    · rw [hadd, List.length_append, List.length_singleton]
      have hfl0 := length_filter_of_take_false
        (fun b => decide (b.batch_id ∉
          ((List.insertionSort leFetched st.json_batches).take
            (st.json_batches.length - MAX_JSON_BATCHES + 1)).map Batch.batch_id))
        (List.insertionSort leFetched st.json_batches)
        (st.json_batches.length - MAX_JSON_BATCHES + 1)
        (fun a ha => decide_eq_false
          (not_not_intro (List.mem_map_of_mem Batch.batch_id ha)))
      rw [hslen] at hfl0
      have hfl := Nat.le_trans (Nat.le_of_eq ((hperm.filter _).length_eq).symm) hfl0
      have h2 : (2 : Nat) ≤ st.json_batches.length := hc
      simp only [MAX_JSON_BATCHES] at hfl ⊢
      omega
    · rw [hadd]
      exact List.mem_append_right _ (List.mem_singleton.mpr rfl)
    · intro hnd hnew d hd hdnot k hk hkin
      rw [hadd] at hdnot hkin
      have hdid : d.batch_id ∈
          ((List.insertionSort leFetched st.json_batches).take
            (st.json_batches.length - MAX_JSON_BATCHES + 1)).map Batch.batch_id := by
        by_contra hno
        exact hdnot (List.mem_append_left _
          (List.mem_filter.mpr ⟨hd, decide_eq_true hno⟩))
      obtain ⟨b', hb', hbid⟩ := List.mem_map.mp hdid
      have hb'mem : b' ∈ st.json_batches :=
        hperm.mem_iff.mp (List.mem_of_mem_take hb')
      have hdb : b' = d := List.inj_on_of_nodup_map hnd hb'mem hd hbid
      have hdtake : d ∈ (List.insertionSort leFetched st.json_batches).take
          (st.json_batches.length - MAX_JSON_BATCHES + 1) := hdb ▸ hb'
      have hknew : k ≠ (⟨newId, sub, posts, posts.length, (posts.length : Int), now⟩ : Batch) := by
        intro hkeq
        have hmem : k.batch_id ∈ st.json_batches.map Batch.batch_id :=
          List.mem_map_of_mem Batch.batch_id hk
        rw [congrArg Batch.batch_id hkeq] at hmem
        exact hnew hmem
      have hkkept : k ∈ st.json_batches.filter
          (fun b => decide (b.batch_id ∉
            ((List.insertionSort leFetched st.json_batches).take
              (st.json_batches.length - MAX_JSON_BATCHES + 1)).map Batch.batch_id)) := by
        rcases List.mem_append.mp hkin with h | h
        · exact h
        · exact (hknew (List.mem_singleton.mp h)).elim
      have hknotold : k.batch_id ∉
          ((List.insertionSort leFetched st.json_batches).take
            (st.json_batches.length - MAX_JSON_BATCHES + 1)).map Batch.batch_id := by
        exact of_decide_eq_true (List.mem_filter.mp hkkept).2
      have hkdrop : k ∈ (List.insertionSort leFetched st.json_batches).drop
          (st.json_batches.length - MAX_JSON_BATCHES + 1) := by
        have hksorted : k ∈ List.insertionSort leFetched st.json_batches :=
          hperm.mem_iff.mpr hk
        rw [← List.take_append_drop (st.json_batches.length - MAX_JSON_BATCHES + 1)
          (List.insertionSort leFetched st.json_batches)] at hksorted
        rcases List.mem_append.mp hksorted with h | h
        · exact (hknotold (List.mem_map_of_mem Batch.batch_id h)).elim
        · exact h
      have hpw : (List.insertionSort leFetched st.json_batches).Pairwise leFetched :=
        List.sorted_insertionSort leFetched st.json_batches
      rw [← List.take_append_drop (st.json_batches.length - MAX_JSON_BATCHES + 1)
        (List.insertionSort leFetched st.json_batches)] at hpw
      exact (List.pairwise_append.mp hpw).2.2 d hdtake k hkdrop

/-- Witness for c10_batch_cap at a store holding two batches. -/
theorem c10_batch_cap_witness :
    (add_json_batch ⟨[⟨1, "s", [], 0, 0, 3⟩, ⟨2, "s", [], 0, 0, 8⟩], [], []⟩
      [] "t" 5 9).json_batches.length ≤ MAX_JSON_BATCHES ∧
    (⟨1, "s", [], 0, 0, 3⟩ : Batch).fetched_at ≤ (⟨2, "s", [], 0, 0, 8⟩ : Batch).fetched_at :=
  ⟨(c10_batch_cap ⟨[⟨1, "s", [], 0, 0, 3⟩, ⟨2, "s", [], 0, 0, 8⟩], [], []⟩ [] "t" 5 9).1,
   (c10_batch_cap ⟨[⟨1, "s", [], 0, 0, 3⟩, ⟨2, "s", [], 0, 0, 8⟩], [], []⟩ [] "t" 5 9).2.2
     (by decide) (by decide)
     ⟨1, "s", [], 0, 0, 3⟩ (by decide) (by decide)
     ⟨2, "s", [], 0, 0, 8⟩ (by decide) (by decide)⟩

theorem processLoop_all_seen (env : Env) (now : Nat) (posts : List Post) :
    ∀ st : DB, (∀ q ∈ posts, is_post_seen st q.id = true) →
      processLoop env now st posts = ⟨st, ⟨[], true, [], [], []⟩⟩ := by
  induction posts with
  | nil => intro st _; rfl
  | cons post rest ih =>
    intro st h
    simp only [processLoop, h post (List.mem_cons_self post rest), if_true]
    exact ih st (fun q hq => h q (List.mem_cons_of_mem post hq))

theorem processLoop_processed_length (env : Env) (now : Nat) (posts : List Post) :
    ∀ st : DB, (processLoop env now st posts).log.processed.length ≤ 1 := by
  induction posts with
  | nil => intro st; simp [processLoop]
  | cons post rest ih =>
    intro st
    simp only [processLoop]
    split
    · exact ih st
    · split
      · simp
      · split <;> simp

theorem process_posts_pending (env : Env) (now : Nat) (st : DB) (p : PendingEntry)
    (rest : List PendingEntry) (hgp : get_pending_posts st = p :: rest) :
    process_posts env now st =
      (if (post_to_twitter env st p.content p.img_paths p.video_path (some p.post_id)).success then
        ⟨mark_post_as_seen
            (post_to_twitter env st p.content p.img_paths p.video_path (some p.post_id)).st
            p.post_id,
         ⟨[(p.post_id, ItemSource.fromPending)], false,
          (post_to_twitter env st p.content p.img_paths p.video_path (some p.post_id)).calls,
          [p.post_id], []⟩⟩
      else if (post_to_twitter env st p.content p.img_paths p.video_path (some p.post_id)).fatal then
        ⟨(post_to_twitter env st p.content p.img_paths p.video_path (some p.post_id)).st,
         ⟨[(p.post_id, ItemSource.fromPending)], false,
          (post_to_twitter env st p.content p.img_paths p.video_path (some p.post_id)).calls,
          [], [p.post_id]⟩⟩
      else
        ⟨(post_to_twitter env st p.content p.img_paths p.video_path (some p.post_id)).st,
         ⟨[(p.post_id, ItemSource.fromPending)], false,
          (post_to_twitter env st p.content p.img_paths p.video_path (some p.post_id)).calls,
          [], []⟩⟩) := by
  simp only [process_posts, hgp]

theorem process_posts_discovery (env : Env) (now : Nat) (st : DB) (posts : List Post)
    (hgp : get_pending_posts st = []) (hex : env.extracted = Except.ok posts) :
    process_posts env now st = processLoop env now st posts := by
  simp only [process_posts, hgp, hex]

theorem process_posts_extract_error (env : Env) (now : Nat) (st : DB) (e : Unit)
    (hgp : get_pending_posts st = []) (hex : env.extracted = Except.error e) :
    process_posts env now st = ⟨st, ⟨[], true, [], [], []⟩⟩ := by
  simp only [process_posts, hgp, hex]

/-- C7: every tick drives at most one item through the publish pipeline;
whenever a retryable pending entry exists, the first one is selected and
extractContent is not consulted; a tick that finds no retryable pending
entry and whose extraction yields only already-seen items is a no-op. -/
theorem c7_one_item_per_tick :
    ∀ (env : Env) (now : Nat) (st : DB),
      (process_posts env now st).log.processed.length ≤ 1 ∧
      (∀ (p : PendingEntry) (rest : List PendingEntry), get_pending_posts st = p :: rest →
        (process_posts env now st).log.discovery = false ∧
        (process_posts env now st).log.processed = [(p.post_id, ItemSource.fromPending)]) ∧
      (∀ posts : List Post, get_pending_posts st = [] → env.extracted = Except.ok posts →
        (∀ q ∈ posts, is_post_seen st q.id = true) →
        (process_posts env now st).st = st ∧
        (process_posts env now st).log.processed = [] ∧
        (process_posts env now st).log.calls = []) := by
  intro env now st
  refine ⟨?_, ?_, ?_⟩
  · cases hgp : get_pending_posts st with
    | nil =>
      cases hex : env.extracted with
      | error e =>
        rw [process_posts_extract_error env now st e hgp hex]
        exact Nat.zero_le 1
      | ok posts =>
        rw [process_posts_discovery env now st posts hgp hex]
        exact processLoop_processed_length env now posts st
    | cons p rest =>
      rw [process_posts_pending env now st p rest hgp]
      split
      · exact Nat.le_refl 1
      · split <;> exact Nat.le_refl 1
  · intro p rest hgp
    rw [process_posts_pending env now st p rest hgp]
    constructor
    · split
      · rfl
      · split <;> rfl
    · split
      · rfl
      · split <;> rfl
  · intro posts hgp hex hall
    rw [process_posts_discovery env now st posts hgp hex,
      processLoop_all_seen env now posts st hall]
    exact ⟨rfl, rfl, rfl⟩

/-- Witness for c7_one_item_per_tick: a store with a retryable pending row
skips discovery, and a tick whose extraction returns only seen posts is a
no-op. -/
theorem c7_one_item_per_tick_witness :
    ((process_posts default 0 ⟨[], [⟨"p", "c", [], "", 0, 0⟩]⟩).log.discovery = false ∧
     (process_posts default 0 ⟨[], [⟨"p", "c", [], "", 0, 0⟩]⟩).log.processed =
       [("p", ItemSource.fromPending)]) ∧
    ((process_posts
        ⟨true, (none, none, none), Except.error ⟨none, "", ""⟩, fun _ => none,
         fun _ => none, Except.ok 1, Except.ok [⟨"s1", "t", "", "u", "", [], ""⟩]⟩
        0 ⟨["s1"], []⟩).st = ⟨["s1"], []⟩) :=
  ⟨(c7_one_item_per_tick default 0 ⟨[], [⟨"p", "c", [], "", 0, 0⟩]⟩).2.1
      ⟨"p", "c", [], "", 0, 0⟩ [] (by decide),
   ((c7_one_item_per_tick
       ⟨true, (none, none, none), Except.error ⟨none, "", ""⟩, fun _ => none,
        fun _ => none, Except.ok 1, Except.ok [⟨"s1", "t", "", "u", "", [], ""⟩]⟩
       0 ⟨["s1"], []⟩).2.2
     [⟨"s1", "t", "", "u", "", [], ""⟩] (by decide) rfl (by decide)).1⟩

theorem mark_seen_mem (st : DB) (pid : String) : pid ∈ (mark_post_as_seen st pid).seen := by
  simp only [mark_post_as_seen]
  split
  · assumption
  · exact List.mem_cons_self _ _

theorem mark_seen_mono (st : DB) (pid x : String) (h : x ∈ st.seen) :
    x ∈ (mark_post_as_seen st pid).seen := by
  simp only [mark_post_as_seen]
  split
  · exact h
  · exact List.mem_cons_of_mem _ h

theorem mark_inv (st stR : DB) (pid : String) (hseen : stR.seen = st.seen)
    (hsub : ∀ e ∈ stR.pending, e ∈ st.pending) (hInv : StoreInv st) :
    StoreInv (mark_post_as_seen stR pid) := by
  intro e he
  simp only [mark_post_as_seen] at he
  have he' := List.mem_filter.mp he
  have hne : e.post_id ≠ pid := by simpa using he'.2
  have hnost : e.post_id ∉ st.seen := hInv e (hsub e he'.1)
  simp only [mark_post_as_seen]
  rw [hseen]
  split
  · exact hnost
  · intro hm
    rcases List.mem_cons.mp hm with h1 | h1
    · exact hne h1
    · exact hnost h1

theorem pt_inv (env : Env) (st : DB) (text : String) (imgs : List String)
    (video : String) (pid : Option String) (h : StoreInv st) :
    StoreInv (post_to_twitter env st text imgs video pid).st := by
  intro e he
  rw [pt_seen]
  exact h e (pt_pending_sub env st text imgs video pid e he)

theorem mem_pending_of_get_pending (st : DB) (p : PendingEntry)
    (h : p ∈ get_pending_posts st) : p ∈ st.pending :=
  (List.mem_filter.mp ((List.perm_insertionSort leLast _).mem_iff.mp h)).1

theorem not_seen_of_guard (st : DB) (pid : String)
    (h : ¬ is_post_seen st pid = true) : pid ∉ st.seen :=
  fun hm => h (decide_eq_true hm)

theorem processLoop_inv (env : Env) (now : Nat) (posts : List Post) :
    ∀ st : DB, StoreInv st → StoreInv (processLoop env now st posts).st := by
  induction posts with
  | nil => exact fun _ h => h
  | cons post rest ih =>
    intro st h
    simp only [processLoop]
    split
    · exact ih st h
    next hseen =>
      split
      · exact mark_inv st _ post.id (pt_seen env st _ _ _ _)
          (fun e he => pt_pending_sub env st _ _ _ _ e he) h
      · split
        · exact mark_inv st _ post.id (pt_seen env st _ _ _ _)
            (fun e he => pt_pending_sub env st _ _ _ _ e he) h
        · intro e he
          simp only [save_pending_post, List.mem_singleton] at he
          subst he
          simp only [save_pending_post]
          rw [pt_seen]
          exact not_seen_of_guard st post.id hseen

theorem process_posts_inv (env : Env) (now : Nat) (st : DB) (h : StoreInv st) :
    StoreInv (process_posts env now st).st := by
  cases hgp : get_pending_posts st with
  | nil =>
    cases hex : env.extracted with
    | error e => rw [process_posts_extract_error env now st e hgp hex]; exact h
    | ok posts => rw [process_posts_discovery env now st posts hgp hex]
                  exact processLoop_inv env now posts st h
  | cons p rest =>
    rw [process_posts_pending env now st p rest hgp]
    split
    · exact mark_inv st _ p.post_id (pt_seen env st _ _ _ _)
        (fun e he => pt_pending_sub env st _ _ _ _ e he) h
    · split
      · exact pt_inv env st _ _ _ _ h
      · exact pt_inv env st _ _ _ _ h

theorem processLoop_seen_mono (env : Env) (now : Nat) (posts : List Post) :
    ∀ (st : DB) (x : String), x ∈ st.seen → x ∈ (processLoop env now st posts).st.seen := by
  induction posts with
  | nil => exact fun _ _ h => h
  | cons post rest ih =>
    intro st x h
    simp only [processLoop]
    split
    · exact ih st x h
    · split
      · exact mark_seen_mono _ post.id x (by rw [pt_seen]; exact h)
      · split
        · exact mark_seen_mono _ post.id x (by rw [pt_seen]; exact h)
        · show x ∈ (save_pending_post _ _ _ _ _ _).seen
          simp only [save_pending_post]
          rw [pt_seen]
          exact h

theorem process_posts_seen_mono (env : Env) (now : Nat) (st : DB) (x : String)
    (h : x ∈ st.seen) : x ∈ (process_posts env now st).st.seen := by
  cases hgp : get_pending_posts st with
  | nil =>
    cases hex : env.extracted with
    | error e => rw [process_posts_extract_error env now st e hgp hex]; exact h
    | ok posts => rw [process_posts_discovery env now st posts hgp hex]
                  exact processLoop_seen_mono env now posts st x h
  | cons p rest =>
    rw [process_posts_pending env now st p rest hgp]
    split
    · exact mark_seen_mono _ p.post_id x (by rw [pt_seen]; exact h)
    · split
      · rw [pt_seen]; exact h
      · rw [pt_seen]; exact h

theorem processLoop_marked_seen (env : Env) (now : Nat) (posts : List Post) :
    ∀ (st : DB) (x : String), x ∈ (processLoop env now st posts).log.marked →
      x ∈ (processLoop env now st posts).st.seen := by
  induction posts with
  | nil => intro st x h; exact absurd h (List.not_mem_nil x)
  | cons post rest ih =>
    intro st x
    simp only [processLoop]
    split
    · exact ih st x
    · split
      · intro h
        rw [List.mem_singleton] at h
        subst h
        exact mark_seen_mem _ post.id
      · split
        · intro h
          rw [List.mem_singleton] at h
          subst h
          exact mark_seen_mem _ post.id
        · intro h; exact absurd h (List.not_mem_nil x)

theorem process_posts_marked_seen (env : Env) (now : Nat) (st : DB) (x : String)
    (h : x ∈ (process_posts env now st).log.marked) :
    x ∈ (process_posts env now st).st.seen := by
  revert h
  cases hgp : get_pending_posts st with
  | nil =>
    cases hex : env.extracted with
    | error e =>
      rw [process_posts_extract_error env now st e hgp hex]
      intro h; exact absurd h (List.not_mem_nil x)
    | ok posts =>
      rw [process_posts_discovery env now st posts hgp hex]
      exact processLoop_marked_seen env now posts st x
  | cons p rest =>
    rw [process_posts_pending env now st p rest hgp]
    split
    · intro h
      rw [List.mem_singleton] at h
      subst h
      exact mark_seen_mem _ p.post_id
    · split
      · intro h; exact absurd h (List.not_mem_nil x)
      · intro h; exact absurd h (List.not_mem_nil x)

theorem processLoop_calls_unseen (env : Env) (now : Nat) (posts : List Post) :
    ∀ (st : DB) (c : PublishCall) (x : String),
      c ∈ (processLoop env now st posts).log.calls → c.post_id = some x →
      x ∉ st.seen := by
  induction posts with
  | nil => intro st c x h _; exact absurd h (List.not_mem_nil c)
  | cons post rest ih =>
    intro st c x
    simp only [processLoop]
    split
    · exact ih st c x
    next hseen =>
      have hcall : ∀ hc : c ∈ (post_to_twitter env st (composeTweet post.title post.content post.url)
          (imgPathsOf post) post.video (some post.id)).calls,
          c.post_id = some x → x ∉ st.seen := by
        intro hc heq
        have := pt_calls_pid env st _ _ _ _ c hc
        rw [heq] at this
        have hx : x = post.id := Option.some.inj this
        rw [hx]
        exact not_seen_of_guard st post.id hseen
      split
      · exact hcall
      · split
        · exact hcall
        · exact hcall

theorem process_posts_calls_unseen (env : Env) (now : Nat) (st : DB)
    (hInv : StoreInv st) (c : PublishCall) (x : String)
    (hc : c ∈ (process_posts env now st).log.calls) (heq : c.post_id = some x) :
    x ∉ st.seen := by
  revert hc
  cases hgp : get_pending_posts st with
  | nil =>
    cases hex : env.extracted with
    | error e =>
      rw [process_posts_extract_error env now st e hgp hex]
      intro hc; exact absurd hc (List.not_mem_nil c)
    | ok posts =>
      rw [process_posts_discovery env now st posts hgp hex]
      intro hc
      exact processLoop_calls_unseen env now posts st c x hc heq
  | cons p rest =>
    rw [process_posts_pending env now st p rest hgp]
    have hmem : p ∈ st.pending :=
      mem_pending_of_get_pending st p (hgp ▸ List.mem_cons_self p rest)
    have hcall : ∀ hc : c ∈ (post_to_twitter env st p.content p.img_paths p.video_path
        (some p.post_id)).calls, x ∉ st.seen := by
      intro hc
      have := pt_calls_pid env st _ _ _ _ c hc
      rw [heq] at this
      have hx : x = p.post_id := Option.some.inj this
      rw [hx]
      exact hInv p hmem
    split
    · exact hcall
    · split
      · exact hcall
      · exact hcall

theorem runFrom_append (st : DB) (l1 l2 : List TickIn) :
    runFrom st (l1 ++ l2) = runFrom (runFrom st l1) l2 := by
  induction l1 generalizing st with
  | nil => rfl
  | cons t ts ih => simp only [List.cons_append, runFrom]; exact ih _

theorem runFrom_inv (l : List TickIn) :
    ∀ st : DB, StoreInv st → StoreInv (runFrom st l) := by
  induction l with
  | nil => exact fun _ h => h
  | cons t ts ih =>
    intro st h
    exact ih _ (process_posts_inv t.env t.now st h)

theorem runFrom_seen_mono (l : List TickIn) :
    ∀ (st : DB) (x : String), x ∈ st.seen → x ∈ (runFrom st l).seen := by
  induction l with
  | nil => exact fun _ _ h => h
  | cons t ts ih =>
    intro st x h
    exact ih _ x (process_posts_seen_mono t.env t.now st x h)

/-- C4: over any sequence of ticks started from a sane store (no pending
row for an already-seen id), once a tick calls mark_post_as_seen for an id,
no create_tweet call of any later tick is made on behalf of that id. -/
theorem c4_dedup :
    ∀ (st0 : DB) (pre : List TickIn) (t : TickIn) (mid : List TickIn) (u : TickIn) (x : String),
      StoreInv st0 →
      x ∈ (process_posts t.env t.now (runFrom st0 pre)).log.marked →
      ∀ c ∈ (process_posts u.env u.now (runFrom st0 (pre ++ t :: mid))).log.calls,
        c.post_id ≠ some x := by
  intro st0 pre t mid u x hInv hmark c hc heq
  have h1 : StoreInv (runFrom st0 pre) := runFrom_inv pre st0 hInv
  have hseen1 : x ∈ (process_posts t.env t.now (runFrom st0 pre)).st.seen :=
    process_posts_marked_seen t.env t.now _ x hmark
  have hrun : runFrom st0 (pre ++ t :: mid) =
      runFrom (process_posts t.env t.now (runFrom st0 pre)).st mid := by
    rw [runFrom_append]
    rfl
  have hseen2 : x ∈ (runFrom st0 (pre ++ t :: mid)).seen := by
    rw [hrun]
    exact runFrom_seen_mono mid _ x hseen1
  have hInv2 : StoreInv (runFrom st0 (pre ++ t :: mid)) := by
    rw [hrun]
    exact runFrom_inv mid _ (process_posts_inv t.env t.now _ h1)
  exact process_posts_calls_unseen u.env u.now _ hInv2 c x hc heq hseen2

/-- Witness for c4_dedup: item a is published and marked in tick one; the
create_tweet call of tick two is for item b, not a. -/
theorem c4_dedup_witness :
    (⟨some "b", "hi\nhttp://u", []⟩ : PublishCall).post_id ≠ some "a" :=
  c4_dedup ⟨[], []⟩ []
    ⟨⟨true, (none, none, none), Except.error ⟨none, "", ""⟩, fun _ => none,
      fun _ => none, Except.ok 1, Except.ok [⟨"a", "hi", "", "http://u", "", [], ""⟩]⟩, 0⟩
    []
    ⟨⟨true, (none, none, none), Except.error ⟨none, "", ""⟩, fun _ => none,
      fun _ => none, Except.ok 1, Except.ok [⟨"b", "hi", "", "http://u", "", [], ""⟩]⟩, 1⟩
    "a" (fun e he => absurd he (List.not_mem_nil e))
    (by decide) ⟨some "b", "hi\nhttp://u", []⟩ (by decide)
